import Mathlib

/-!
Verification of the daily-trivia server core, a shallow embedding of
src/server/index.ts.

Modelling choices:
* Day keys (the ISO date strings produced by getTodayString and
  getYesterdayString) are modelled as natural numbers: the string
  "YYYY-MM-DD" is in order-preserving bijection with the day count, and the
  server only ever compares day keys for equality or uses them as record
  keys.  Where the relation between today and yesterday matters the two keys
  are explicit parameters of the embedded handler, exactly as the handler
  reads them from two separate clock calls.
* JavaScript objects used as string-keyed maps (db.users, user.answers) are
  modelled as association lists; property assignment and object spread
  replace an existing key in place and append a fresh key, which is what the
  jsSet function below implements.
* JavaScript numbers arriving in request bodies (answerIndex) are modelled
  as integers; user ids (fid) as naturals, with 0 the falsy value that the
  handler's `!fid` check rejects.
* Calendar arithmetic performed through the JavaScript Date object
  (getQuestionNumber) is modelled with an explicit proleptic Gregorian day
  count in a single fixed time zone; daylight-saving shifts are not
  modelled.
-/

namespace DailyTrivia

/-- Trivia question as stored in the catalog (interface Question). -/
structure Question where
  id : Nat
  question : String
  options : List String
  correct : Int
  category : String
  funFact : String
  deriving DecidableEq

/-- Value stored in a user's answers map: answers[today] = (correct, date: today). -/
structure AnswerEntry where
  correct : Bool
  date : Nat
  deriving DecidableEq

/-- Per-user persisted record (interface UserData). -/
structure UserData where
  fid : Nat
  username : Option String
  currentStreak : Nat
  longestStreak : Nat
  lastPlayed : Option Nat
  lastCorrect : Bool
  totalPlayed : Nat
  totalCorrect : Nat
  answers : List (Nat × AnswerEntry)
  deriving DecidableEq

/-- The persisted store (interface UsersDB): a string-keyed map of user records,
modelled as an association list keyed by fid. -/
structure UsersDB where
  users : List (Nat × UserData)
  deriving DecidableEq

/-- Model of JavaScript property assignment db[k] = v on an object used as a map:
an existing key keeps its position and gets the new value, a fresh key is
appended.  Object spread followed by a computed key writes the same way. -/
def jsSet {β : Type} (l : List (Nat × β)) (k : Nat) (v : β) : List (Nat × β) :=
  if (l.lookup k).isSome then
    l.map (fun p => if p.1 = k then (k, v) else p)
  else
    l ++ [(k, v)]

/-- Model of the JavaScript expression a || b on optional strings: undefined and
the empty string are falsy, so either falls through to b. -/
def jsOrElse (a b : Option String) : Option String :=
  match a with
  | some s => if s = "" then b else some s
  | none => b

/-- The record getUser creates on first access: every counter zeroed, no last
played day, empty answers map. -/
def freshUser (fid : Nat) : UserData :=
  { fid := fid
    username := none
    currentStreak := 0
    longestStreak := 0
    lastPlayed := none
    lastCorrect := false
    totalPlayed := 0
    totalCorrect := 0
    answers := [] }

/-- Model of getUser: look the id up in the store; on a miss, create the zeroed
record, persist it (saveUsers), and return it together with the updated store. -/
def getUser (fid : Nat) (db : UsersDB) : UserData × UsersDB :=
  match db.users.lookup fid with
  | some u => (u, db)
  | none => (freshUser fid, ⟨db.users ++ [(fid, freshUser fid)]⟩)

/-- Seed computed by getTodaysQuestion: year * 10000 + month * 100 + day, with
month 1-based (the source adds 1 to getMonth()). -/
def seedOf (year month day : Nat) : Nat :=
  year * 10000 + month * 100 + day

/-- Model of getTodaysQuestion: index the catalog at seed mod catalog length.
Returns none exactly when the catalog is empty (the fatal configuration the
spec excludes). -/
def getTodaysQuestion (catalog : List Question) (year month day : Nat) :
    Option Question :=
  catalog[(seedOf year month day) % catalog.length]?

/-- Gregorian leap-year rule, the rule the JavaScript Date object applies. -/
def isLeap (y : Nat) : Bool :=
  (y % 4 == 0 && y % 100 != 0) || y % 400 == 0

/-- Length of month m (1-based) of year y in the Gregorian calendar. -/
def daysInMonth (y m : Nat) : Nat :=
  if m = 2 then (if isLeap y then 29 else 28)
  else if m = 4 ∨ m = 6 ∨ m = 9 ∨ m = 11 then 30
  else 31

/-- Number of days of year y that lie in months strictly before month m. -/
def daysBeforeMonth (y : Nat) : Nat → Nat
  | 0 => 0
  | m + 1 => if m = 0 then 0 else daysBeforeMonth y m + daysInMonth y m

/-- Number of days in year y. -/
def daysInYear (y : Nat) : Nat :=
  daysBeforeMonth y 13

/-- The 1-based day-of-year ordinal of a calendar date: 1 on January 1. -/
def dayOfYear (y m d : Nat) : Nat :=
  daysBeforeMonth y m + d

/-- Total number of days in all years strictly before year y. -/
def daysUpToYear : Nat → Nat
  | 0 => 0
  | y + 1 => daysUpToYear y + daysInYear y

/-- Day index of the calendar date (y, m, d): the model of the whole-day part of
a JavaScript time value for that date at local midnight. -/
def toDays (y m d : Nat) : Nat :=
  daysUpToYear y + daysBeforeMonth y m + d

/-- Milliseconds per day, the divisor in getQuestionNumber. -/
def oneDayMs : Nat :=
  1000 * 60 * 60 * 24

/-- Model of getQuestionNumber for the moment ms milliseconds after local
midnight of the calendar date (y, m, d):  new Date(year, 0, 0) normalises to
December 31 of the previous year, and the source floors the millisecond
difference divided by one day. -/
def getQuestionNumber (y m d ms : Nat) : Nat :=
  (toDays y m d * oneDayMs + ms - toDays (y - 1) 12 31 * oneDayMs) / oneDayMs

/-- Row of the leaderboard response: projection of a user record. -/
structure LeaderboardEntry where
  fid : Nat
  username : Option String
  streak : Nat
  total : Nat
  deriving DecidableEq

/-- Sort order induced by the comparator
(a, b) => b.longestStreak - a.longestStreak || b.totalCorrect - a.totalCorrect:
a sorts no later than b when b has a strictly smaller longest streak, or the
streaks tie and b has no larger totalCorrect. -/
def userLe (a b : UserData) : Bool :=
  decide (b.longestStreak < a.longestStreak) ||
    (b.longestStreak == a.longestStreak && decide (b.totalCorrect ≤ a.totalCorrect))

/-- Model of Array.prototype.slice(0, e): a negative end index counts from the
end of the array (clamped at 0), a non-negative one truncates the front. -/
def jsSliceTo {α : Type} (l : List α) (e : Int) : List α :=
  if e < 0 then l.take (l.length - e.natAbs) else l.take e.toNat

/-- Model of getLeaderboard: sort every stored record with the comparator,
slice to the limit, and project each record to its leaderboard row. -/
def getLeaderboard (users : List UserData) (limit : Int) : List LeaderboardEntry :=
  (jsSliceTo (users.mergeSort userLe) limit).map
    (fun u => ⟨u.fid, u.username, u.longestStreak, u.totalCorrect⟩)

/-- Outcome of the POST /api/answer handler. -/
inductive AnswerResult where
  | missingFields
  | alreadyPlayed (user : UserData) (todaysAnswer : Option AnswerEntry)
  | success (isCorrect : Bool) (correctAnswer : Int) (user : UserData) (funFact : String)
  deriving DecidableEq

/-- Model of the POST /api/answer handler.  The parameters today and yesterday
are the two day keys the handler reads from the clock; the question is the one
getTodaysQuestion selects for today.  Reject when fid is falsy (0) or
answerIndex is absent; reject, without mutating, when the record's lastPlayed
already equals today; otherwise score the answer, recompute the streak, and
persist the rebuilt record under the user's key. -/
def postAnswer (db : UsersDB) (fid : Nat) (username : Option String)
    (answerIndex : Option Int) (today yesterday : Nat) (question : Question) :
    AnswerResult × UsersDB :=
  if fid = 0 then (.missingFields, db)
  else
    match answerIndex with
    | none => (.missingFields, db)
    | some ai =>
      let gu := getUser fid db
      let user := gu.1
      let db1 := gu.2
      if user.lastPlayed = some today then
        (.alreadyPlayed user (user.answers.lookup today), db1)
      else
        let isCorrect : Bool := ai == question.correct
        let newStreak : Nat :=
          if isCorrect then
            if user.lastPlayed = some yesterday ∧ user.lastCorrect then
              user.currentStreak + 1
            else 1
          else 0
        let updated : UserData :=
          { fid := user.fid
            username := jsOrElse username user.username
            currentStreak := newStreak
            longestStreak := max newStreak user.longestStreak
            lastPlayed := some today
            lastCorrect := isCorrect
            totalPlayed := user.totalPlayed + 1
            totalCorrect := user.totalCorrect + (if isCorrect then 1 else 0)
            answers := jsSet user.answers today ⟨isCorrect, today⟩ }
        (.success isCorrect question.correct updated question.funFact,
          ⟨jsSet db1.users fid updated⟩)

/-- Day keys on which the record holds a scored answer: the keys of its
answers map. -/
def scoredDays (r : UserData) : List Nat :=
  r.answers.map Prod.fst

/-- Check that the record's lastPlayed day is one of its scored days and no
scored day is later than it. -/
def lastIsMostRecentB (r : UserData) : Bool :=
  match r.lastPlayed with
  | none => false
  | some d => decide (d ∈ scoredDays r) && (scoredDays r).all fun k => decide (k ≤ d)

/-- The C3 record invariant: longestStreak dominates currentStreak,
totalCorrect never exceeds totalPlayed, and a positive streak forces
lastCorrect and forces lastPlayed to be the most recent scored day. -/
def RecordInv (r : UserData) : Prop :=
  r.currentStreak ≤ r.longestStreak ∧
  r.totalCorrect ≤ r.totalPlayed ∧
  (0 < r.currentStreak → r.lastCorrect = true ∧ lastIsMostRecentB r = true)

instance (r : UserData) : Decidable (RecordInv r) := by
  unfold RecordInv
  infer_instance

/-! Helper lemmas about the store operations. -/

theorem lookup_append_single {β : Type} (l : List (Nat × β)) (k : Nat) (v : β)
    (h : l.lookup k = none) : (l ++ [(k, v)]).lookup k = some v := by
  induction l with
  | nil => simp [List.lookup]
  | cons a t ih =>
    rcases a with ⟨a1, a2⟩
    rw [List.cons_append]
    cases hbeq : k == a1 with
    | true => simp [List.lookup, hbeq] at h
    | false =>
      simp only [List.lookup, hbeq] at h ⊢
      exact ih h

theorem lookup_map_replace {β : Type} (l : List (Nat × β)) (k : Nat) (v : β)
    (h : (l.lookup k).isSome) :
    ((l.map fun p => if p.1 = k then (k, v) else p).lookup k) = some v := by
  induction l with
  | nil => simp [List.lookup] at h
  | cons a t ih =>
    rcases a with ⟨a1, a2⟩
    by_cases hk : a1 = k
    · subst hk
      rw [List.map_cons, if_pos rfl]
      simp [List.lookup]
    · have hbeq : (k == a1) = false := by simpa using Ne.symm hk
      rw [List.map_cons, if_neg (show ¬((a1, a2).1 = k) from hk)]
      simp only [List.lookup, hbeq] at h ⊢
      exact ih h

theorem jsSet_lookup_self {β : Type} (l : List (Nat × β)) (k : Nat) (v : β) :
    (jsSet l k v).lookup k = some v := by
  unfold jsSet
  split
  · exact lookup_map_replace l k v (by assumption)
  · exact lookup_append_single l k v (by rcases h : l.lookup k <;> simp_all)

theorem lookup_mem_values {β : Type} (l : List (Nat × β)) (k : Nat) (v : β)
    (h : l.lookup k = some v) : v ∈ l.map Prod.snd := by
  induction l with
  | nil => simp [List.lookup] at h
  | cons a t ih =>
    rcases a with ⟨a1, a2⟩
    cases hbeq : k == a1 with
    | true =>
      simp only [List.lookup, hbeq] at h
      injection h with h
      subst h
      simp
    | false =>
      simp only [List.lookup, hbeq] at h
      simpa using Or.inr (ih h)

theorem mem_values_jsSet {β : Type} (l : List (Nat × β)) (k : Nat) (v x : β)
    (hx : x ∈ (jsSet l k v).map Prod.snd) : x = v ∨ x ∈ l.map Prod.snd := by
  unfold jsSet at hx
  split at hx
  · obtain ⟨p, hp, rfl⟩ := List.mem_map.mp hx
    obtain ⟨p0, hp0, rfl⟩ := List.mem_map.mp hp
    by_cases h0 : p0.1 = k
    · rw [if_pos h0]
      exact Or.inl rfl
    · rw [if_neg h0]
      exact Or.inr (List.mem_map.mpr ⟨p0, hp0, rfl⟩)
  · rw [List.map_append] at hx
    rcases List.mem_append.mp hx with h | h
    · exact Or.inr h
    · simp only [List.map_cons, List.map_nil, List.mem_singleton] at h
      exact Or.inl h

theorem lookup_eq_none_of_keys_lt {β : Type} (l : List (Nat × β)) (t : Nat)
    (h : ∀ k ∈ l.map Prod.fst, k < t) : l.lookup t = none := by
  induction l with
  | nil => simp [List.lookup]
  | cons a t2 ih =>
    rcases a with ⟨a1, a2⟩
    have ha1 : a1 < t := h a1 (by simp)
    have hbeq : (t == a1) = false := by simpa using (by omega : t ≠ a1)
    simp only [List.lookup, hbeq]
    exact ih (fun k hk => h k (by simp [hk]))

theorem freshUser_inv (fid : Nat) : RecordInv (freshUser fid) := by
  refine ⟨Nat.le_refl 0, Nat.le_refl 0, ?_⟩
  intro h
  exact absurd h (by simp [freshUser])

theorem updated_record_inv (u : UserData) (uname : Option String) (a : Int)
    (today yesterday : Nat) (q : Question)
    (hu : RecordInv u) (htime : ∀ k ∈ scoredDays u, k < today) :
    RecordInv
      { fid := u.fid
        username := jsOrElse uname u.username
        currentStreak :=
          if (a == q.correct : Bool) then
            if u.lastPlayed = some yesterday ∧ u.lastCorrect then
              u.currentStreak + 1
            else 1
          else 0
        longestStreak :=
          max (if (a == q.correct : Bool) then
            if u.lastPlayed = some yesterday ∧ u.lastCorrect then
              u.currentStreak + 1
            else 1
          else 0) u.longestStreak
        lastPlayed := some today
        lastCorrect := (a == q.correct : Bool)
        totalPlayed := u.totalPlayed + 1
        totalCorrect := u.totalCorrect + (if (a == q.correct : Bool) then 1 else 0)
        answers := jsSet u.answers today ⟨(a == q.correct : Bool), today⟩ } := by
  have hnone : u.answers.lookup today = none :=
    lookup_eq_none_of_keys_lt _ _ (fun k hk => htime k hk)
  have hset : jsSet u.answers today ⟨(a == q.correct : Bool), today⟩ =
      u.answers ++ [(today, ⟨(a == q.correct : Bool), today⟩)] := by
    unfold jsSet
    rw [hnone]
    simp
  refine ⟨Nat.le_max_left _ _, ?_, ?_⟩
  · have h2 := hu.2.1
    dsimp only
    split <;> omega
  · intro hpos
    by_cases hisC : (a == q.correct) = true
    · refine ⟨hisC, ?_⟩
      simp only [lastIsMostRecentB, scoredDays, hset, List.map_append,
        List.map_cons, List.map_nil, Bool.and_eq_true, decide_eq_true_eq,
        List.all_eq_true, List.mem_append, List.mem_singleton]
      refine ⟨Or.inr trivial, ?_⟩
      intro k hk
      rcases hk with hk | hk
      · exact Nat.le_of_lt (htime k hk)
      · exact Nat.le_of_eq hk
    · rw [Bool.not_eq_true] at hisC
      rw [hisC] at hpos
      simp at hpos

/-- C9: a request body with fid equal to 0 (and any present answerIndex) is
rejected with the missing-fields error and leaves the store untouched, because
the falsy check treats the numeric id 0 as absent; a user with id 0 can never
submit a scored answer. -/
theorem fid_zero_rejected (db : UsersDB) (uname : Option String) (ai : Int)
    (today yesterday : Nat) (q : Question) :
    postAnswer db 0 uname (some ai) today yesterday q = (.missingFields, db) := by
  simp [postAnswer]

/-- C5: for a non-empty catalog, the selected question is exactly the catalog
entry at index (year * 10000 + month * 100 + day) mod catalog size; the
selection is a pure function of the date and the catalog, hence identical on
every call. -/
theorem question_selection_formula (catalog : List Question) (year month day : Nat)
    (h : catalog ≠ []) :
    ∃ hlt : (year * 10000 + month * 100 + day) % catalog.length < catalog.length,
      getTodaysQuestion catalog year month day =
        some (catalog.get ⟨(year * 10000 + month * 100 + day) % catalog.length, hlt⟩) := by
  have hlen : 0 < catalog.length := List.length_pos.mpr h
  refine ⟨Nat.mod_lt _ hlen, ?_⟩
  simp [getTodaysQuestion, seedOf, List.getElem?_eq_getElem]

/-- Closed instance of question_selection_formula on a two-element catalog. -/
theorem question_selection_formula_witness :
    ∃ hlt : (2024 * 10000 + 5 * 100 + 7) % (2 : Nat) < 2,
      getTodaysQuestion
          [⟨1, "a", ["x"], 0, "c", "f"⟩, ⟨2, "b", ["y"], 0, "c", "g"⟩] 2024 5 7 =
        some (List.get [⟨1, "a", ["x"], 0, "c", "f"⟩, ⟨2, "b", ["y"], 0, "c", "g"⟩]
          ⟨(2024 * 10000 + 5 * 100 + 7) % 2, hlt⟩) :=
  question_selection_formula
    [⟨1, "a", ["x"], 0, "c", "f"⟩, ⟨2, "b", ["y"], 0, "c", "g"⟩] 2024 5 7 (by decide)

/-- C2: a second submission in the same day key fails with the already-played
error, returns the stored record together with the stored answer for today,
and leaves the store unchanged. -/
theorem already_played_idempotent (db : UsersDB) (fid : Nat) (uname : Option String)
    (ai : Int) (today yesterday : Nat) (q : Question) (r : UserData)
    (hfid : fid ≠ 0) (hlook : db.users.lookup fid = some r)
    (hplayed : r.lastPlayed = some today) :
    postAnswer db fid uname (some ai) today yesterday q =
      (.alreadyPlayed r (r.answers.lookup today), db) := by
  simp [postAnswer, getUser, hlook, hplayed, hfid]

/-- Closed instance of already_played_idempotent. -/
theorem already_played_idempotent_witness :
    postAnswer ⟨[(3, ⟨3, none, 1, 1, some 50, true, 1, 1, [(50, ⟨true, 50⟩)]⟩)]⟩ 3 none
        (some 0) 50 49 ⟨1, "q", ["x", "y"], 0, "c", "f"⟩ =
      (.alreadyPlayed ⟨3, none, 1, 1, some 50, true, 1, 1, [(50, ⟨true, 50⟩)]⟩
        (some ⟨true, 50⟩),
       ⟨[(3, ⟨3, none, 1, 1, some 50, true, 1, 1, [(50, ⟨true, 50⟩)]⟩)]⟩) :=
  already_played_idempotent _ 3 none 0 50 49 _ _ (by decide) (by decide) (by decide)

/-- C1: on every scored submission (the user has not played today), the new
currentStreak is old + 1 when the answer is correct, the record's last played
day is yesterday and its lastCorrect flag is set; 1 when the answer is correct
otherwise (missed day or prior wrong answer); and 0 when the answer is wrong. -/
theorem streak_update_rule (db : UsersDB) (fid : Nat) (uname : Option String)
    (ai : Int) (today yesterday : Nat) (q : Question) (r : UserData)
    (hfid : fid ≠ 0) (hr : (getUser fid db).1 = r) (hnp : r.lastPlayed ≠ some today) :
    ∃ c ca u ff db2,
      postAnswer db fid uname (some ai) today yesterday q = (.success c ca u ff, db2) ∧
      u.currentStreak =
        (if ai = q.correct then
          (if r.lastPlayed = some yesterday ∧ r.lastCorrect = true then
            r.currentStreak + 1
          else 1)
        else 0) := by
  subst hr
  simp only [postAnswer, if_neg hfid]
  rw [if_neg hnp]
  refine ⟨_, _, _, _, _, rfl, ?_⟩
  by_cases hc : ai = q.correct
  · simp [hc]
  · simp [hc]

/-- Closed instance of streak_update_rule: correct answer after a missed day
yields streak 1. -/
theorem streak_update_rule_witness :
    ∃ c ca u ff db2,
      postAnswer ⟨[(3, ⟨3, none, 4, 4, some 40, true, 6, 5, []⟩)]⟩ 3 none (some 0) 50 49
          ⟨1, "q", ["x", "y"], 0, "c", "f"⟩ = (.success c ca u ff, db2) ∧
      u.currentStreak =
        (if (0 : Int) = 0 then
          (if (some 40 : Option Nat) = some 49 ∧ true = true then 4 + 1 else 1)
        else 0) :=
  streak_update_rule ⟨[(3, ⟨3, none, 4, 4, some 40, true, 6, 5, []⟩)]⟩ 3 none 0 50 49
    ⟨1, "q", ["x", "y"], 0, "c", "f"⟩ ⟨3, none, 4, 4, some 40, true, 6, 5, []⟩
    (by decide) (by decide) (by decide)

/-! Leaderboard ordering facts. -/

theorem userLe_trans (a b c : UserData) (hab : userLe a b = true)
    (hbc : userLe b c = true) : userLe a c = true := by
  simp only [userLe, Bool.or_eq_true, Bool.and_eq_true, decide_eq_true_eq,
    beq_iff_eq] at hab hbc ⊢
  omega

theorem userLe_total (a b : UserData) : (userLe a b || userLe b a) = true := by
  simp only [userLe, Bool.or_eq_true, Bool.and_eq_true, decide_eq_true_eq,
    beq_iff_eq]
  omega

/-- C6: for every record collection and positive limit, the leaderboard is
sorted by longestStreak descending with ties broken by totalCorrect
descending, every row projects the fields of one of the input records
(streak takes longestStreak, total takes totalCorrect), and there are at most
limit rows. -/
theorem leaderboard_ranked (users : List UserData) (limit : Int) (hpos : 0 < limit) :
    ((getLeaderboard users limit).Pairwise fun e1 e2 =>
      e2.streak < e1.streak ∨ (e2.streak = e1.streak ∧ e2.total ≤ e1.total)) ∧
    (∀ e ∈ getLeaderboard users limit, ∃ u ∈ users,
      e.fid = u.fid ∧ e.username = u.username ∧
      e.streak = u.longestStreak ∧ e.total = u.totalCorrect) ∧
    (getLeaderboard users limit).length ≤ limit.toNat := by
  have hnneg : ¬ limit < 0 := by omega
  refine ⟨?_, ?_, ?_⟩
  · unfold getLeaderboard jsSliceTo
    rw [if_neg hnneg, List.pairwise_map]
    have hs : (users.mergeSort userLe).Pairwise (fun a b => userLe a b = true) :=
      List.sorted_mergeSort userLe_trans userLe_total users
    have ht := hs.sublist (List.take_sublist limit.toNat (users.mergeSort userLe))
    refine ht.imp ?_
    intro a b h
    simp only [userLe, Bool.or_eq_true, Bool.and_eq_true, decide_eq_true_eq,
      beq_iff_eq] at h
    simpa using h
  · intro e he
    unfold getLeaderboard at he
    obtain ⟨u, hu, rfl⟩ := List.mem_map.mp he
    have hmem : u ∈ users.mergeSort userLe := by
      unfold jsSliceTo at hu
      rw [if_neg hnneg] at hu
      exact List.take_subset _ _ hu
    exact ⟨u, List.mem_mergeSort.mp hmem, rfl, rfl, rfl, rfl⟩
  · unfold getLeaderboard jsSliceTo
    rw [if_neg hnneg]
    simp only [List.length_map, List.length_take]
    exact Nat.min_le_left _ _

unseal List.merge List.mergeSort in
/-- Closed instance of leaderboard_ranked on the spec's worked example:
records with (longestStreak, totalCorrect) of (5,10), (5,12), (3,20) rank as
[(5,12), (5,10), (3,20)]. -/
theorem leaderboard_ranked_witness :
    (getLeaderboard
        [⟨1, none, 0, 5, none, false, 10, 10, []⟩,
         ⟨2, none, 0, 5, none, false, 12, 12, []⟩,
         ⟨3, none, 0, 3, none, false, 20, 20, []⟩] 10).map
      (fun e => (e.streak, e.total)) = [(5, 12), (5, 10), (3, 20)] ∧
    (getLeaderboard
        [⟨1, none, 0, 5, none, false, 10, 10, []⟩,
         ⟨2, none, 0, 5, none, false, 12, 12, []⟩,
         ⟨3, none, 0, 3, none, false, 20, 20, []⟩] 10).length ≤ (10 : Int).toNat :=
  ⟨by decide,
   (leaderboard_ranked
     [⟨1, none, 0, 5, none, false, 10, 10, []⟩,
      ⟨2, none, 0, 5, none, false, 12, 12, []⟩,
      ⟨3, none, 0, 3, none, false, 20, 20, []⟩] 10 (by decide)).2.2⟩

unseal List.merge List.mergeSort in
/-- Counterexample to C7 as stated: with a negative limit the slice counts
from the end of the array, so two stored records and limit -1 produce a
non-empty ranking even though -1 <= 0. -/
theorem leaderboard_negative_limit_counterexample :
    (-1 : Int) ≤ 0 ∧
    getLeaderboard
        [⟨1, none, 0, 0, none, false, 0, 0, []⟩,
         ⟨2, none, 0, 0, none, false, 0, 0, []⟩] (-1) ≠ [] := by
  decide

unseal List.merge List.mergeSort in
/-- C7 amended: the ranking is empty for an empty record collection (any
limit) and for limit exactly 0; for a negative limit the slice instead drops
the last natAbs(limit) sorted records, leaving length(users) - natAbs(limit)
rows (empty only when the limit's magnitude reaches the record count). -/
theorem leaderboard_empty_cases (users : List UserData) (limit : Int) :
    getLeaderboard [] limit = [] ∧
    getLeaderboard users 0 = [] ∧
    (limit < 0 →
      (getLeaderboard users limit).length = users.length - limit.natAbs) := by
  refine ⟨?_, ?_, ?_⟩
  · unfold getLeaderboard jsSliceTo
    split <;> simp
  · unfold getLeaderboard jsSliceTo
    norm_num
  · intro hneg
    unfold getLeaderboard jsSliceTo
    rw [if_pos hneg]
    simp only [List.length_map, List.length_take, List.length_mergeSort]
    omega

/-- Closed instance of leaderboard_empty_cases, discharging the negative-limit
implication at limit -1 over two records. -/
theorem leaderboard_empty_cases_witness :
    getLeaderboard [] (-5) = [] ∧
    getLeaderboard [⟨1, none, 0, 0, none, false, 0, 0, []⟩,
        ⟨2, none, 0, 0, none, false, 0, 0, []⟩] 0 = [] ∧
    (getLeaderboard [⟨1, none, 0, 0, none, false, 0, 0, []⟩,
        ⟨2, none, 0, 0, none, false, 0, 0, []⟩] (-1)).length =
      ([⟨1, none, 0, 0, none, false, 0, 0, []⟩,
        ⟨2, none, 0, 0, none, false, 0, 0, []⟩] : List UserData).length -
        (-1 : Int).natAbs :=
  ⟨(leaderboard_empty_cases [] (-5)).1,
   (leaderboard_empty_cases _ 0).2.1,
   (leaderboard_empty_cases _ (-1)).2.2 (by decide)⟩

/-- Counterexample to C4 as stated: the handler never checks answerIndex
against the bounds of today's options.  Index 99 against a four-option
question is accepted, scored as incorrect, and the store is mutated (a record
with totalPlayed 1 and a history entry for today is persisted). -/
theorem out_of_range_scored_counterexample :
    (4 : Int) ≤ 99 ∧
    (⟨1, "q", ["a", "b", "c", "d"], 2, "cat", "f"⟩ : Question).options.length = 4 ∧
    postAnswer ⟨[]⟩ 7 none (some 99) 100 99 ⟨1, "q", ["a", "b", "c", "d"], 2, "cat", "f"⟩ =
      (.success false 2 ⟨7, none, 0, 0, some 100, false, 1, 0, [(100, ⟨false, 100⟩)]⟩ "f",
       ⟨[(7, ⟨7, none, 0, 0, some 100, false, 1, 0, [(100, ⟨false, 100⟩)]⟩)]⟩) := by
  decide

/-- C4 amended: an out-of-range candidateAnswerIndex is not rejected; because
it cannot equal the (in-range) correct index, it is scored as an incorrect
answer, and the record is mutated: currentStreak becomes 0, totalPlayed is
incremented, totalCorrect is unchanged, a history entry with correct = false
is stored under today, and the rebuilt record is persisted under the user's
key. -/
theorem out_of_range_scored (db : UsersDB) (fid : Nat) (uname : Option String)
    (ai : Int) (today yesterday : Nat) (q : Question) (r : UserData)
    (hfid : fid ≠ 0) (hr : (getUser fid db).1 = r) (hnp : r.lastPlayed ≠ some today)
    (hout : ai < 0 ∨ (q.options.length : Int) ≤ ai)
    (hcr : 0 ≤ q.correct ∧ q.correct < (q.options.length : Int)) :
    ∃ u db2,
      postAnswer db fid uname (some ai) today yesterday q =
        (.success false q.correct u q.funFact, db2) ∧
      u.currentStreak = 0 ∧ u.totalPlayed = r.totalPlayed + 1 ∧
      u.totalCorrect = r.totalCorrect ∧
      u.answers = jsSet r.answers today ⟨false, today⟩ ∧
      db2.users.lookup fid = some u := by
  have hne : ai ≠ q.correct := by omega
  have hbeq : (ai == q.correct) = false := by simpa using hne
  subst hr
  simp only [postAnswer, if_neg hfid, hbeq]
  rw [if_neg hnp]
  simp only [Bool.false_eq_true, if_false]
  exact ⟨_, _, rfl, rfl, rfl, rfl, rfl, jsSet_lookup_self _ _ _⟩

/-- Closed instance of out_of_range_scored at index -3 on a three-option
question for a user with one prior day of history. -/
theorem out_of_range_scored_witness :
    ∃ u db2,
      postAnswer ⟨[(5, ⟨5, none, 1, 1, some 80, true, 1, 1, [(80, ⟨true, 80⟩)]⟩)]⟩ 5 none
          (some (-3)) 81 80 ⟨2, "q", ["a", "b", "c"], 1, "cat", "g"⟩ =
        (.success false 1 u "g", db2) ∧
      u.currentStreak = 0 ∧ u.totalPlayed = 1 + 1 ∧
      u.totalCorrect = 1 ∧
      u.answers = jsSet [(80, ⟨true, 80⟩)] 81 ⟨false, 81⟩ ∧
      db2.users.lookup 5 = some u :=
  out_of_range_scored ⟨[(5, ⟨5, none, 1, 1, some 80, true, 1, 1, [(80, ⟨true, 80⟩)]⟩)]⟩ 5
    none (-3) 81 80 ⟨2, "q", ["a", "b", "c"], 1, "cat", "g"⟩
    ⟨5, none, 1, 1, some 80, true, 1, 1, [(80, ⟨true, 80⟩)]⟩
    (by decide) (by decide) (by decide) (by decide) (by decide)

/-- C10: looking up a user id with no stored record creates a zeroed record
(currentStreak, longestStreak, totalPlayed, totalCorrect all 0, empty
answerHistory), persists it in the store, and the never-played record is part
of the population the leaderboard ranks: on a store holding only this record
it occupies a slot with streak 0 and total 0. -/
theorem first_access_creates_and_ranks (db : UsersDB) (fid : Nat)
    (habs : db.users.lookup fid = none) :
    (getUser fid db).1 = freshUser fid ∧
    (getUser fid db).2.users.lookup fid = some (freshUser fid) ∧
    (freshUser fid).currentStreak = 0 ∧ (freshUser fid).longestStreak = 0 ∧
    (freshUser fid).totalPlayed = 0 ∧ (freshUser fid).totalCorrect = 0 ∧
    (freshUser fid).answers = [] ∧
    freshUser fid ∈ (getUser fid db).2.users.map Prod.snd ∧
    getLeaderboard ((getUser fid ⟨[]⟩).2.users.map Prod.snd) 20 =
      [⟨fid, none, 0, 0⟩] := by
  have hone : (List.mergeSort [freshUser fid] userLe) = [freshUser fid] :=
    List.perm_singleton.mp (List.mergeSort_perm _ _)
  refine ⟨?_, ?_, rfl, rfl, rfl, rfl, rfl, ?_, ?_⟩
  · simp [getUser, habs]
  · simp only [getUser, habs]
    exact lookup_append_single _ _ _ habs
  · simp [getUser, habs]
  · simp [getUser, getLeaderboard, jsSliceTo, hone, freshUser, List.lookup]

/-- Closed instance of first_access_creates_and_ranks at fid 5 on an empty
store. -/
theorem first_access_creates_and_ranks_witness :
    (getUser 5 ⟨[]⟩).1 = freshUser 5 ∧
    (getUser 5 ⟨[]⟩).2.users.lookup 5 = some (freshUser 5) ∧
    (freshUser 5).currentStreak = 0 ∧ (freshUser 5).longestStreak = 0 ∧
    (freshUser 5).totalPlayed = 0 ∧ (freshUser 5).totalCorrect = 0 ∧
    (freshUser 5).answers = [] ∧
    freshUser 5 ∈ (getUser 5 ⟨[]⟩).2.users.map Prod.snd ∧
    getLeaderboard ((getUser 5 ⟨[]⟩).2.users.map Prod.snd) 20 =
      [⟨5, none, 0, 0⟩] :=
  first_access_creates_and_ranks ⟨[]⟩ 5 (by decide)

/-- C3: the invariant (longestStreak >= currentStreak, totalCorrect <=
totalPlayed, and a positive currentStreak forces lastCorrect = true with
lastPlayed the most recent scored day) holds of every freshly created record
and is preserved by every submit operation: whenever every record stored
before the call satisfies it and the submitting user's record has all its
scored days before today, every record stored after the call satisfies it. -/
theorem record_invariant_preserved :
    (∀ fid, RecordInv (freshUser fid)) ∧
    (∀ db fid uname ansIdx today yesterday q res db2,
      postAnswer db fid uname ansIdx today yesterday q = (res, db2) →
      (∀ r ∈ db.users.map Prod.snd, RecordInv r) →
      (∀ k ∈ scoredDays (getUser fid db).1, k < today) →
      ∀ r2 ∈ db2.users.map Prod.snd, RecordInv r2) := by
  refine ⟨freshUser_inv, ?_⟩
  intro db fid uname ansIdx today yesterday q res db2 hpost hinv htime r2 hr2
  by_cases hfid : fid = 0
  · simp only [postAnswer, if_pos hfid] at hpost
    injection hpost with h1 h2
    subst h2
    exact hinv r2 hr2
  · cases ansIdx with
    | none =>
      simp only [postAnswer, if_neg hfid] at hpost
      injection hpost with h1 h2
      subst h2
      exact hinv r2 hr2
    | some a =>
      simp only [postAnswer, if_neg hfid] at hpost
      cases hlu : db.users.lookup fid with
      | some r =>
        have hgu : getUser fid db = (r, db) := by simp [getUser, hlu]
        rw [hgu] at hpost htime
        by_cases hplayed : r.lastPlayed = some today
        · rw [if_pos hplayed] at hpost
          injection hpost with h1 h2
          subst h2
          exact hinv r2 hr2
        · rw [if_neg hplayed] at hpost
          injection hpost with h1 h2
          subst h2
          rcases mem_values_jsSet _ _ _ _ hr2 with h | h
          · rw [h]
            exact updated_record_inv r uname a today yesterday q
              (hinv r (lookup_mem_values _ _ _ hlu)) htime
          · exact hinv r2 h
      | none =>
        have hgu : getUser fid db =
            (freshUser fid, ⟨db.users ++ [(fid, freshUser fid)]⟩) := by
          simp [getUser, hlu]
        rw [hgu] at hpost htime
        rw [if_neg (by simp [freshUser])] at hpost
        injection hpost with h1 h2
        subst h2
        rcases mem_values_jsSet _ _ _ _ hr2 with h | h
        · rw [h]
          exact updated_record_inv (freshUser fid) uname a today yesterday q
            (freshUser_inv fid) htime
        · rw [List.map_append] at h
          rcases List.mem_append.mp h with h | h
          · exact hinv r2 h
          · simp only [List.map_cons, List.map_nil, List.mem_singleton] at h
            rw [h]
            exact freshUser_inv fid

/-- Closed instance of record_invariant_preserved: the invariant holds of a
fresh record and of the record stored after a correct first answer on an
empty store. -/
theorem record_invariant_preserved_witness :
    RecordInv (freshUser 1) ∧
    RecordInv ⟨7, none, 1, 1, some 10, true, 1, 1, [(10, ⟨true, 10⟩)]⟩ :=
  ⟨record_invariant_preserved.1 1,
   record_invariant_preserved.2 ⟨[]⟩ 7 none (some 0) 10 9
     ⟨1, "q", ["x", "y"], 0, "c", "f"⟩
     (.success true 0 ⟨7, none, 1, 1, some 10, true, 1, 1, [(10, ⟨true, 10⟩)]⟩ "f")
     ⟨[(7, ⟨7, none, 1, 1, some 10, true, 1, 1, [(10, ⟨true, 10⟩)]⟩)]⟩
     (by decide) (by decide) (by decide)
     ⟨7, none, 1, 1, some 10, true, 1, 1, [(10, ⟨true, 10⟩)]⟩ (by decide)⟩

/-! Calendar lemmas for the question-number claim. -/

theorem daysBeforeMonth_succ (y m : Nat) (h : 1 ≤ m) :
    daysBeforeMonth y (m + 1) = daysBeforeMonth y m + daysInMonth y m := by
  have hm : m ≠ 0 := by omega
  simp [daysBeforeMonth, hm]

theorem daysInYear_eq (y : Nat) : daysInYear y = daysBeforeMonth y 12 + 31 := by
  unfold daysInYear
  rw [show (13 : Nat) = 12 + 1 from rfl, daysBeforeMonth_succ y 12 (by omega)]
  norm_num [daysInMonth]

theorem toDays_prev_dec31 (y : Nat) (h : 1 ≤ y) :
    toDays (y - 1) 12 31 = daysUpToYear y := by
  obtain ⟨y0, rfl⟩ : ∃ y0, y = y0 + 1 := ⟨y - 1, by omega⟩
  simp only [Nat.add_sub_cancel, toDays, daysUpToYear]
  rw [daysInYear_eq]
  omega

theorem daysBeforeMonth_mono (y : Nat) {m1 m2 : Nat} (h : m1 ≤ m2) :
    daysBeforeMonth y m1 ≤ daysBeforeMonth y m2 := by
  induction m2 with
  | zero =>
    have h0 : m1 = 0 := by omega
    rw [h0]
  | succ n ih =>
    rcases Nat.lt_or_ge m1 (n + 1) with hl | hg
    · have hle := ih (by omega)
      have hstep : daysBeforeMonth y n ≤ daysBeforeMonth y (n + 1) := by
        by_cases hn : n = 0
        · subst hn
          simp [daysBeforeMonth]
        · rw [daysBeforeMonth_succ y n (by omega)]
          omega
      omega
    · have he : m1 = n + 1 := by omega
      rw [he]

theorem getQuestionNumber_eq_dayOfYear (y m d ms : Nat) (hy : 1 ≤ y)
    (hms : ms < oneDayMs) : getQuestionNumber y m d ms = dayOfYear y m d := by
  unfold getQuestionNumber
  rw [toDays_prev_dec31 y hy]
  have hexp : toDays y m d = daysUpToYear y + (daysBeforeMonth y m + d) := by
    simp [toDays, Nat.add_assoc]
  rw [hexp, Nat.add_mul, Nat.add_assoc, Nat.add_sub_cancel_left]
  have hX : (0 : Nat) < oneDayMs := by norm_num [oneDayMs]
  rw [Nat.mul_comm, Nat.mul_add_div hX, Nat.div_eq_of_lt hms]
  simp [dayOfYear]

theorem dayOfYear_strict_mono (y m1 d1 m2 d2 : Nat) (hm1 : 1 ≤ m1)
    (hd1 : d1 ≤ daysInMonth y m1) (hd2 : 1 ≤ d2)
    (hlt : m1 < m2 ∨ (m1 = m2 ∧ d1 < d2)) :
    dayOfYear y m1 d1 < dayOfYear y m2 d2 := by
  rcases hlt with hm | ⟨he, hd⟩
  · have h1 : daysBeforeMonth y m1 + daysInMonth y m1 ≤ daysBeforeMonth y m2 := by
      rw [← daysBeforeMonth_succ y m1 hm1]
      exact daysBeforeMonth_mono y (by omega)
    unfold dayOfYear
    omega
  · subst he
    unfold dayOfYear
    omega

/-- C8: for every calendar date, the question-number computation returns the
1-based day-of-year of that date (1 on January 1, 365 or 366 on December 31
according to leap status, at any time of day), and the returned number is
strictly monotonic over the valid dates of a single year. -/
theorem question_number_is_day_of_year :
    (∀ y m d ms, 1 ≤ y → ms < oneDayMs →
      getQuestionNumber y m d ms = dayOfYear y m d) ∧
    (∀ y, dayOfYear y 1 1 = 1) ∧
    (∀ y, dayOfYear y 12 31 = if isLeap y then 366 else 365) ∧
    (∀ y m1 d1 ms1 m2 d2 ms2, 1 ≤ y → ms1 < oneDayMs → ms2 < oneDayMs →
      1 ≤ m1 → d1 ≤ daysInMonth y m1 → 1 ≤ d2 →
      (m1 < m2 ∨ (m1 = m2 ∧ d1 < d2)) →
      getQuestionNumber y m1 d1 ms1 < getQuestionNumber y m2 d2 ms2) := by
  refine ⟨getQuestionNumber_eq_dayOfYear, ?_, ?_, ?_⟩
  · intro y
    simp [dayOfYear, daysBeforeMonth]
  · intro y
    cases hL : isLeap y <;>
      simp [dayOfYear, daysBeforeMonth, daysInMonth, hL]
  · intro y m1 d1 ms1 m2 d2 ms2 hy hms1 hms2 hm1 hd1 hd2 hlt
    rw [getQuestionNumber_eq_dayOfYear y m1 d1 ms1 hy hms1,
      getQuestionNumber_eq_dayOfYear y m2 d2 ms2 hy hms2]
    exact dayOfYear_strict_mono y m1 d1 m2 d2 hm1 hd1 hd2 hlt

/-- Closed instance of question_number_is_day_of_year in the leap year 2024:
March 1 at noon is day 61, January 1 is day 1, December 31 is day 366, and
February 29 comes strictly before March 1. -/
theorem question_number_is_day_of_year_witness :
    getQuestionNumber 2024 3 1 43200000 = dayOfYear 2024 3 1 ∧
    dayOfYear 2024 1 1 = 1 ∧
    dayOfYear 2024 12 31 = (if isLeap 2024 then 366 else 365) ∧
    getQuestionNumber 2024 2 29 0 < getQuestionNumber 2024 3 1 0 :=
  ⟨question_number_is_day_of_year.1 2024 3 1 43200000 (by decide) (by decide),
   question_number_is_day_of_year.2.1 2024,
   question_number_is_day_of_year.2.2.1 2024,
   question_number_is_day_of_year.2.2.2 2024 2 29 0 3 1 0 (by decide) (by decide)
     (by decide) (by decide) (by decide) (by decide) (Or.inl (by decide))⟩

end DailyTrivia
